import Mathlib

/-!
Verification development for the Directus API client (directus.go).

The repository is a single-file generic HTTP client for the Directus CMS.
Its one non-trivial algorithm is the reflection-driven field-path deriver
(functions iterateFields and structFields), which walks a read-model struct
type and produces the flat list of dot-separated remote field names to put
in the "fields" query parameter. We embed the type descriptors that Go
reflection inspects as an inductive type, translate the deriver and the
client plumbing into Lean functions, and prove properties about them.
-/

namespace DirectusApi

/-- The scalar kinds that the deriver's flat-leaf case accepts
(src/directus.go lines 323-326): Bool, Int, Int8, Int16, Int32, Int64,
Uint, Uint8, Uint16, Uint32, Uint64, Uintptr, Float32, Float64, String. -/
inductive ScalarKind : Type where
  | boolK | intK | int8K | int16K | int32K | int64K
  | uintK | uint8K | uint16K | uint32K | uint64K | uintptrK
  | float32K | float64K | stringK
  deriving DecidableEq

/-- The reflect.Kind values that fall into the deriver's default (panic)
branch: everything other than Struct, Slice, the scalars above, Map and
Pointer. -/
inductive OtherKind : Type where
  | invalidK | c64K | c128K | arrayK | chanK | funcK | ifaceK | uptrK
  deriving DecidableEq

/-- Go's Kind.String() rendering for the kinds of the default branch,
used in the panic message at src/directus.go line 337. -/
def kindString : OtherKind → String
  | .invalidK => "invalid"
  | .c64K => "complex64"
  | .c128K => "complex128"
  | .arrayK => "array"
  | .chanK => "chan"
  | .funcK => "func"
  | .ifaceK => "interface"
  | .uptrK => "unsafe.Pointer"

mutual

/-- Embedding of the Go type descriptor (reflect.Type) as seen by
structFields. A struct type records whether it is convertible to the
package's Time type (the isTime test at line 291), whether it implements
the isOpt interface together with that implementation's fields method
(the isOptional test at line 292 and the delegation at lines 295-299),
and its declared fields. A pointer type records the element type's
String() rendering, used in the panic message at line 335. -/
inductive Ty : Type where
  | scalar (k : ScalarKind)
  | mapTy
  | structTy (isTime : Bool) (opt : Option (String → List String)) (fields : Fields)
  | sliceTy (elem : Ty)
  | ptrTy (elemTypeName : String)
  | otherTy (k : OtherKind)

/-- The declared fields of a struct type, in declaration order. Each field
has its Go name, the value of the rename tag when the tag is present
(Tag.Lookup at line 283; a present-but-empty tag is some ""), and its
type. -/
inductive Fields : Type where
  | nil
  | cons (name : String) (tag : Option String) (ty : Ty) (rest : Fields)

end

/-- The remote-name resolution at src/directus.go lines 282-287: the rename
tag's value when the tag is present, else the field's declared name. -/
def remoteName (name : String) (tag : Option String) : String :=
  match tag with
  | some v => v
  | none => name

/-- The two panic sites of structFields, kept apart as distinct error
kinds: the pointer refusal at line 335 and the default-branch refusal at
line 337. Each carries the panic message verbatim. -/
inductive DerivErr : Type where
  | pointerNotSupported (msg : String)
  | kindNotImplemented (msg : String)
  deriving DecidableEq

mutual

/-- Embedding of structFields (src/directus.go lines 281-339): derives the
field paths contributed by a single struct field under the given prefix.
Go panics are modelled as Except errors, which the caller propagates. -/
def structFields (name : String) (tag : Option String) (ty : Ty) (pre : String) :
    Except DerivErr (List String) :=
  let tagVal := remoteName name tag
  match ty with
  | .structTy isTime opt fs =>
    match opt with
    | some optFields =>
      if pre = "" then
        Except.ok (optFields tagVal)
      else
        Except.ok (optFields (pre ++ "." ++ tagVal))
    | none =>
      if isTime then
        Except.ok [pre]
      else
        let p := if pre = "" then tagVal else pre ++ "." ++ tagVal
        iterateFields fs p
  | .sliceTy elem =>
    let p := if pre = "" then tagVal else pre ++ "." ++ tagVal
    match elem with
    | .structTy _ _ efs => iterateFields efs p
    | _ => Except.ok [p]
  | .scalar _ =>
    let v := if pre = "" then tagVal else pre ++ "." ++ tagVal
    Except.ok [v]
  | .mapTy =>
    let v := if pre = "" then tagVal else pre ++ "." ++ tagVal
    Except.ok [v]
  | .ptrTy elemTypeName =>
    Except.error (DerivErr.pointerNotSupported
      (name ++ "(" ++ elemTypeName ++ "," ++ pre ++
        "): pointer is not supported, use directus.Optional instead"))
  | .otherTy k =>
    Except.error (DerivErr.kindNotImplemented (kindString k ++ " not implemented"))

/-- Embedding of iterateFields (src/directus.go lines 271-278): concatenates
the paths of all fields of a struct type, in declaration order. -/
def iterateFields (fs : Fields) (pre : String) : Except DerivErr (List String) :=
  match fs with
  | .nil => Except.ok []
  | .cons name tag ty rest =>
    match structFields name tag ty pre with
    | Except.error e => Except.error e
    | Except.ok a =>
      match iterateFields rest pre with
      | Except.error e => Except.error e
      | Except.ok b => Except.ok (a ++ b)

end

/-- The API version tag (src/directus.go lines 11-16). -/
inductive Version : Type where
  | v8 | v9
  deriving DecidableEq

/-- Embedding of the generic client struct API[R, W, PK]
(src/directus.go lines 26-36). The read model R enters the client only
through reflection over its type, so we record its type descriptor (the
declared field list) instead of a Lean type parameter; the remaining
fields are carried verbatim. queryFields is the lazily computed path
cache, nil (none) until filled. -/
structure APIClient : Type where
  scheme : String
  host : String
  nspace : String
  collectionName : String
  bearerToken : String
  readTy : Fields
  queryFields : Option (List String)
  debug : Bool
  version : Version

/-- Embedding of jsonFieldsR (src/directus.go lines 261-268). It has a
pointer receiver: when the cache is nil it derives the path list from the
read model's type descriptor with an empty prefix and stores it in the
receiver, then returns it; otherwise it returns the cached list. The
updated receiver is returned alongside the result; a derivation panic
propagates as an error. -/
def jsonFieldsR (d : APIClient) : Except DerivErr (List String × APIClient) :=
  match d.queryFields with
  | none =>
    match iterateFields d.readTy "" with
    | Except.error e => Except.error e
    | Except.ok fs => Except.ok (fs, { d with queryFields := some fs })
  | some fs => Except.ok (fs, d)

/-- Models the field-derivation phase shared by the CRUD operations
(Insert, Create, GetByID, Update, Set, Items). These methods all have
VALUE receivers — func (d API[R, W, PK]) Insert(...) at line 78 and its
siblings — so each call operates on a copy of the caller's client value;
d.jsonFieldsR() inside the method takes the address of that copy, and the
cache write it performs lands in the copy, which is discarded when the
method returns. The function returns the path list the request uses,
whether this call recomputed the list (jsonFieldsR found a nil cache),
and the caller-visible client value after the call. -/
def opFieldsPhase (d : APIClient) : Except DerivErr (List String × Bool × APIClient) :=
  match jsonFieldsR d with
  | Except.error e => Except.error e
  | Except.ok (fs, _copyAfter) => Except.ok (fs, d.queryFields.isNone, d)

/-- Modelled from the spec: the outcome of one HTTP round trip as seen by
executeRequest, whose definition is not under src/ (only its callers
are). Per spec sections 4.2, 6 and 7, a request either fails in
transport, or yields a response with a status code and a JSON body whose
decoding of the data envelope field may fail. -/
inductive HttpOutcome (β : Type) : Type where
  | transportFailure (msg : String)
  | response (status : Nat) (decodedData : Except String β)

/-- Modelled from the spec: executeRequest executes the request and
decodes the data envelope, checking an expected status code; transport
failure, a status other than the expected one, and decoding failure are
each returned as an error, and only a fully successful exchange yields
the decoded payload (spec sections 4.2 and 7). -/
def executeRequest {β : Type} (expectedStatus : Nat) (o : HttpOutcome β) :
    Except String β :=
  match o with
  | .transportFailure m => Except.error m
  | .response st dec =>
    if st = expectedStatus then
      match dec with
      | Except.error m => Except.error m
      | Except.ok b => Except.ok b
    else
      Except.error ("unexpected status " ++ toString st)

/-- Embedding of the result handling of Insert (src/directus.go lines
78-99): expected status 200; on error the zero value of R is returned
together with the wrapped error, otherwise the decoded data. Go's
(R, error) pair is modelled as R times Option String. -/
def insertResult {R : Type} (zeroR : R) (o : HttpOutcome R) : R × Option String :=
  match executeRequest 200 o with
  | Except.error e => (zeroR, some ("execute insert request: " ++ e))
  | Except.ok data => (data, none)

/-- Embedding of the result handling of Create (src/directus.go lines
105-128), same shape as Insert with its own wrap message. -/
def createResult {R : Type} (zeroR : R) (o : HttpOutcome R) : R × Option String :=
  match executeRequest 200 o with
  | Except.error e => (zeroR, some ("execute create request: " ++ e))
  | Except.ok data => (data, none)

/-- Embedding of the result handling of GetByID (src/directus.go lines
134-156). -/
def getByIDResult {R : Type} (zeroR : R) (o : HttpOutcome R) : R × Option String :=
  match executeRequest 200 o with
  | Except.error e => (zeroR, some ("execute get by id request: " ++ e))
  | Except.ok data => (data, none)

/-- Embedding of the result handling of Update (src/directus.go lines
162-184). -/
def updateResult {R : Type} (zeroR : R) (o : HttpOutcome R) : R × Option String :=
  match executeRequest 200 o with
  | Except.error e => (zeroR, some ("execute update request: " ++ e))
  | Except.ok data => (data, none)

/-- Embedding of the result handling of Set (src/directus.go lines
190-212). -/
def setResult {R : Type} (zeroR : R) (o : HttpOutcome R) : R × Option String :=
  match executeRequest 200 o with
  | Except.error e => (zeroR, some ("execute set request: " ++ e))
  | Except.ok data => (data, none)

/-- Embedding of the result handling of Items (src/directus.go lines
239-259): on error Go returns a nil slice, modelled as the empty list. -/
def itemsResult {R : Type} (o : HttpOutcome (List R)) : List R × Option String :=
  match executeRequest 200 o with
  | Except.error e => ([], some ("execute items request: " ++ e))
  | Except.ok data => (data, none)

/-- Embedding of the query-parameter assembly in Items (src/directus.go
lines 241-242): qv is the map produced by the version-specific
translation q.asKeyValue(d.Version) — whose definition is not under src/,
so its output map is taken here as a parameter, modelled as a partial
lookup String to Option String — and then qv with key fields is assigned
the comma-joined derived path list. Go map assignment updates one key and
leaves every other key unchanged. -/
def itemsParams (d : APIClient) (translated : String → Option String) :
    Except DerivErr (String → Option String) :=
  match jsonFieldsR d with
  | Except.error e => Except.error e
  | Except.ok (fs, _) =>
    Except.ok (fun k =>
      if k = "fields" then some (String.intercalate "," fs) else translated k)

/-! Helper definitions used by the statements below. -/

/-- The remote names of a field list, in declaration order. -/
def remoteNames : Fields → List String
  | .nil => []
  | .cons name tag _ rest => remoteName name tag :: remoteNames rest

/-- Whether every field of the list has a plain scalar type (bool, any
integer or float width, string). -/
def allScalar : Fields → Bool
  | .nil => true
  | .cons _ _ ty rest =>
    (match ty with
     | .scalar _ => true
     | _ => false) && allScalar rest

/-- Whether a type descriptor is a struct kind. -/
def isStructTy : Ty → Bool
  | .structTy _ _ _ => true
  | _ => false

/-- Modelled from the spec: the package's Time type is declared outside
src/ (directus.go only converts to it at line 291); the spec calls it the
recognized opaque time representation. A struct convertible to it is any
structTy carrying isTime := true. For concrete instances we give it the
field layout of Go's time.Time (wall uint64, ext int64, loc
pointer-to-Location), which is what a descent into a Time-convertible
struct would see; the time branch never inspects these fields. -/
def timeFields : Fields :=
  .cons "wall" none (.scalar .uint64K)
    (.cons "ext" none (.scalar .int64K)
      (.cons "loc" none (.ptrTy "time.Location") .nil))

/-- A concrete Time-convertible struct type. -/
def timeTy : Ty := .structTy true none timeFields

/-- A concrete all-scalar read model: field id of type int without a tag,
field Name of type string renamed to title by its tag. -/
def sampleReadTy : Fields :=
  .cons "id" none (.scalar .intK)
    (.cons "Name" (some "title") (.scalar .stringK) .nil)

/-- A concrete client over sampleReadTy with an empty path cache. -/
def sampleClient : APIClient :=
  { scheme := "https"
    host := "example.com"
    nspace := "ns"
    collectionName := "articles"
    bearerToken := "secret"
    readTy := sampleReadTy
    queryFields := none
    debug := false
    version := .v8 }

/-- A concrete optional-wrapper struct type: it implements the isOpt
capability with a fields method reporting a single path value under the
given scope, while its declared struct fields are a single string field
Val. -/
def optWrapTy : Ty :=
  .structTy false (some (fun p => [p ++ ".value"]))
    (.cons "Val" none (.scalar .stringK) .nil)

/-- For an all-scalar field list, the deriver emits one path per field in
declaration order: the remote name under the given prefix. -/
theorem iterateFields_allScalar : ∀ (fs : Fields) (pre : String),
    allScalar fs = true →
    iterateFields fs pre =
      Except.ok ((remoteNames fs).map
        (fun l => if pre = "" then l else pre ++ "." ++ l))
  | .nil, pre, _ => by simp [iterateFields, remoteNames]
  | .cons name tag ty rest, pre, h => by
    cases ty with
    | scalar k =>
      have hrest : allScalar rest = true := by
        simpa [allScalar] using h
      have ih := iterateFields_allScalar rest pre hrest
      simp [iterateFields, structFields, remoteNames, ih]
    | mapTy => simp [allScalar] at h
    | structTy a b c => simp [allScalar] at h
    | sliceTy e => simp [allScalar] at h
    | ptrTy s => simp [allScalar] at h
    | otherTy k => simp [allScalar] at h

/-- Claim C3: for a read model all of whose fields are plain scalars, the
derived field-path list equals the fields' remote names — the rename
tag's value when present, else the declared name — in declaration
order. -/
theorem scalar_read_model_paths (d : APIClient)
    (hcache : d.queryFields = none) (hsc : allScalar d.readTy = true) :
    jsonFieldsR d =
      Except.ok (remoteNames d.readTy,
        { d with queryFields := some (remoteNames d.readTy) }) := by
  have h := iterateFields_allScalar d.readTy "" hsc
  simp [jsonFieldsR, hcache, h]

/-- Witness for claim C3: the sample client's two scalar fields derive to
id and title (the second field is renamed by its tag). -/
theorem scalar_read_model_paths_witness :
    jsonFieldsR sampleClient =
      Except.ok (["id", "title"],
        { sampleClient with queryFields := some ["id", "title"] }) := by
  have h := scalar_read_model_paths sampleClient rfl (by decide)
  simpa [sampleClient, sampleReadTy, remoteNames, remoteName] using h

/-- Claim C4: a field whose type is a plain nested struct (not
time-convertible, not an optional wrapper) and which carries no rename
tag recurses with the prefix extended by the field's name, and at the top
level the derived paths are fieldName.innerRemoteName for each scalar
leaf of the inner struct. The side condition that the field name is
nonempty always holds in Go, where a struct field's name is a nonempty
identifier. -/
theorem nested_struct_prefix_paths (name : String) (inner : Fields)
    (pre : String) (hname : name ≠ "") (hleaf : allScalar inner = true) :
    structFields name none (.structTy false none inner) pre
      = iterateFields inner (if pre = "" then name else pre ++ "." ++ name)
    ∧ structFields name none (.structTy false none inner) ""
      = Except.ok ((remoteNames inner).map (fun l => name ++ "." ++ l)) := by
  constructor
  · by_cases h : pre = "" <;> simp [structFields, remoteName, h]
  · have h := iterateFields_allScalar inner name hleaf
    simp [structFields, remoteName, h, hname]

/-- Witness for claim C4: a nested struct field Meta over the sample
scalar fields derives to Meta.id and Meta.title. -/
theorem nested_struct_prefix_paths_witness :
    structFields "Meta" none (.structTy false none sampleReadTy) ""
      = Except.ok ["Meta.id", "Meta.title"] := by
  have h := (nested_struct_prefix_paths "Meta" sampleReadTy ""
    (by decide) (by decide)).2
  simpa [remoteNames, sampleReadTy, remoteName] using h

/-- Claim C1 (code bug in the time branch): structFields emits the bare
prefix for a time-convertible field, not the field's remote name under
the prefix. A top-level field CreatedAt of time-convertible type yields
the single path "" and the same field under prefix meta yields "meta",
dropping CreatedAt in both cases. Exactly one path is emitted and no
descent into the time struct's fields happens (a descent would hit the
loc pointer field and fail), but the emitted path is the prefix alone. -/
theorem time_field_emits_bare_prefix :
    structFields "CreatedAt" none timeTy "" = Except.ok [""]
    ∧ structFields "CreatedAt" none timeTy "meta" = Except.ok ["meta"] :=
  ⟨rfl, rfl⟩

/-- Claim C6: for a struct field implementing the optional-wrapper
capability, the derived paths are exactly what the capability's fields
method reports for the scope prefix.remoteName — remoteName alone when
the prefix is empty — regardless of the wrapper struct's own fields and
of its time-convertibility, and nothing else is contributed. -/
theorem optional_wrapper_delegation (name : String) (tag : Option String)
    (isTime : Bool) (g : String → List String) (fs : Fields) (pre : String) :
    structFields name tag (.structTy isTime (some g) fs) pre
      = Except.ok (g (if pre = "" then remoteName name tag
                      else pre ++ "." ++ remoteName name tag)) := by
  by_cases h : pre = "" <;> simp [structFields, h]

/-- Claim C7: a pointer-typed field makes derivation fail with the
pointer-not-supported error, whose message names the field and points at
directus.Optional; every kind outside struct, slice, the supported
scalars, map and pointer fails with the kind-not-implemented error. The
equalities pin down the exact error value, so derivation neither succeeds
nor fails differently. -/
theorem unsupported_kind_errors (name : String) (tag : Option String)
    (pre : String) (en : String) (k : OtherKind) :
    structFields name tag (.ptrTy en) pre
      = Except.error (DerivErr.pointerNotSupported
          (name ++ "(" ++ en ++ "," ++ pre ++
            "): pointer is not supported, use directus.Optional instead"))
    ∧ structFields name tag (.otherTy k) pre
      = Except.error (DerivErr.kindNotImplemented
          (kindString k ++ " not implemented")) :=
  ⟨rfl, rfl⟩

/-- Claim C5, counterexample: for a slice whose element struct implements
the optional-wrapper capability, the slice branch descends into the
element's declared fields (it never consults the capability), while a
single nested-struct field of the same type delegates to the capability,
so the two derivations differ: S.Val versus S.value here. -/
theorem slice_of_struct_not_like_nested :
    structFields "S" none (.sliceTy optWrapTy) ""
      ≠ structFields "S" none optWrapTy "" := by
  have h1 : structFields "S" none (.sliceTy optWrapTy) ""
      = Except.ok ["S.Val"] := rfl
  have h2 : structFields "S" none optWrapTy ""
      = Except.ok ["S.value"] := rfl
  rw [h1, h2]
  intro h
  exact absurd (Except.ok.inj h) (by decide)

/-- Claim C5 as amended: for a slice field whose element is a plain struct
— neither time-convertible nor an optional wrapper — the derived paths
equal those of a single nested-struct field of the element type with the
same name, tag and prefix; for a slice of any non-struct element, exactly
one path is emitted: prefix.remoteName, or remoteName alone when the
prefix is empty. -/
theorem slice_paths (name : String) (tag : Option String) (efs : Fields)
    (pre : String) :
    structFields name tag (.sliceTy (.structTy false none efs)) pre
      = structFields name tag (.structTy false none efs) pre
    ∧ ∀ e : Ty, isStructTy e = false →
        structFields name tag (.sliceTy e) pre
          = Except.ok [if pre = "" then remoteName name tag
                       else pre ++ "." ++ remoteName name tag] := by
  constructor
  · simp [structFields]
  · intro e he
    cases e with
    | structTy a b c => simp [isStructTy] at he
    | scalar k => simp [structFields]
    | mapTy => simp [structFields]
    | sliceTy e2 => simp [structFields]
    | ptrTy s => simp [structFields]
    | otherTy k2 => simp [structFields]

/-- Witness for claim C5 as amended: a slice of the sample scalar struct
derives like the corresponding nested struct, and a slice of strings
named Tags derives to the single path Tags. -/
theorem slice_paths_witness :
    structFields "S" none (.sliceTy (.structTy false none sampleReadTy)) ""
      = structFields "S" none (.structTy false none sampleReadTy) ""
    ∧ structFields "Tags" none (.sliceTy (.scalar .stringK)) ""
      = Except.ok ["Tags"] := by
  refine ⟨(slice_paths "S" none sampleReadTy "").1, ?_⟩
  have h := (slice_paths "Tags" none sampleReadTy "").2 (.scalar .stringK) rfl
  simpa [remoteName] using h

/-- Claim C2 (code bug): the CRUD operations have value receivers, so the
cache write performed by jsonFieldsR through the address of the method's
receiver lands in a copy that is discarded when the method returns. On
the sample client the operation recomputes the path list (flag true) and
the caller-visible client after the call is the unchanged sampleClient,
whose cache is still empty — so the next operation, running the same
derivation phase on that client, recomputes again instead of reusing a
cached list. -/
theorem operations_recompute_paths :
    opFieldsPhase sampleClient
      = Except.ok (["id", "title"], true, sampleClient)
    ∧ sampleClient.queryFields = none :=
  ⟨rfl, rfl⟩

/-- Claim C8: the derived path list is a function of the read-model type
descriptor alone: two clients with the same read type but arbitrary other
configuration and data, both before their first derivation, derive
identical path lists. -/
theorem derivation_deterministic (d1 d2 : APIClient)
    (hty : d1.readTy = d2.readTy)
    (h1 : d1.queryFields = none) (h2 : d2.queryFields = none) :
    Except.map Prod.fst (jsonFieldsR d1)
      = Except.map Prod.fst (jsonFieldsR d2) := by
  simp only [jsonFieldsR, h1, h2, hty]
  cases iterateFields d2.readTy "" <;> simp [Except.map]

/-- Witness for claim C8: the sample client and a reconfigured copy with a
different host, token and version derive the same path list. -/
theorem derivation_deterministic_witness :
    Except.map Prod.fst (jsonFieldsR sampleClient)
      = Except.map Prod.fst (jsonFieldsR
          { sampleClient with
              host := "other.example"
              bearerToken := "other"
              version := .v9 }) :=
  derivation_deterministic _ _ rfl rfl rfl

/-- The shared result-handling shape of the six item operations: each is
definitionally an instance of this pattern with its own wrap message and
zero value, as the rewriting equations below record. -/
def genResult {R : Type} (msg : String) (zeroR : R) (o : HttpOutcome R) :
    R × Option String :=
  match executeRequest 200 o with
  | Except.error e => (zeroR, some (msg ++ e))
  | Except.ok data => (data, none)

theorem insertResult_eq_gen {R : Type} (zeroR : R) (o : HttpOutcome R) :
    insertResult zeroR o = genResult "execute insert request: " zeroR o := rfl

theorem createResult_eq_gen {R : Type} (zeroR : R) (o : HttpOutcome R) :
    createResult zeroR o = genResult "execute create request: " zeroR o := rfl

theorem getByIDResult_eq_gen {R : Type} (zeroR : R) (o : HttpOutcome R) :
    getByIDResult zeroR o = genResult "execute get by id request: " zeroR o := rfl

theorem updateResult_eq_gen {R : Type} (zeroR : R) (o : HttpOutcome R) :
    updateResult zeroR o = genResult "execute update request: " zeroR o := rfl

theorem setResult_eq_gen {R : Type} (zeroR : R) (o : HttpOutcome R) :
    setResult zeroR o = genResult "execute set request: " zeroR o := rfl

theorem itemsResult_eq_gen {R : Type} (o : HttpOutcome (List R)) :
    itemsResult o = genResult "execute items request: " [] o := by
  cases h : executeRequest 200 o <;> simp [itemsResult, genResult, h]

/-- executeRequest yields a payload exactly when the outcome is a response
with the expected status whose data decoded successfully. -/
theorem executeRequest_ok_iff {β : Type} (expSt : Nat) (o : HttpOutcome β)
    (b : β) :
    executeRequest expSt o = Except.ok b
      ↔ o = HttpOutcome.response expSt (Except.ok b) := by
  cases o with
  | transportFailure m => simp [executeRequest]
  | response st dec =>
    by_cases h : st = expSt
    · cases dec <;> simp [executeRequest, h]
    · simp [executeRequest, h]

/-- The two directions of the per-operation result contract: an error
leaves the zero value, and the absence of an error pins the outcome to a
decoded status-200 response whose payload is returned. -/
theorem genResult_spec {R : Type} (msg : String) (zeroR : R)
    (o : HttpOutcome R) :
    ((genResult msg zeroR o).2.isSome = true →
      (genResult msg zeroR o).1 = zeroR)
    ∧ ((genResult msg zeroR o).2 = none →
      ∃ b, o = HttpOutcome.response 200 (Except.ok b)
        ∧ (genResult msg zeroR o).1 = b) := by
  constructor
  · rcases h : executeRequest 200 o with e | b <;> simp [genResult, h]
  · rcases h : executeRequest 200 o with e | b
    · simp [genResult, h]
    · simp only [genResult, h]
      intro _
      exact ⟨b, (executeRequest_ok_iff 200 o b).mp h, rfl⟩

/-- Claim C9: whenever Insert, Create, GetByID, Update or Set returns a
non-nil error its read-model result is the zero value of the read type,
and whenever Items returns a non-nil error its result slice is nil (the
empty list); a result without error is returned only when the outcome was
a response with the expected status 200 whose data decoded, and the
returned value is then that payload. -/
theorem error_results_zero {R : Type} (zeroR : R)
    (o1 o2 o3 o4 o5 : HttpOutcome R) (o6 : HttpOutcome (List R)) :
    ((insertResult zeroR o1).2.isSome = true →
      (insertResult zeroR o1).1 = zeroR)
    ∧ ((insertResult zeroR o1).2 = none →
      ∃ b, o1 = HttpOutcome.response 200 (Except.ok b)
        ∧ (insertResult zeroR o1).1 = b)
    ∧ ((createResult zeroR o2).2.isSome = true →
      (createResult zeroR o2).1 = zeroR)
    ∧ ((createResult zeroR o2).2 = none →
      ∃ b, o2 = HttpOutcome.response 200 (Except.ok b)
        ∧ (createResult zeroR o2).1 = b)
    ∧ ((getByIDResult zeroR o3).2.isSome = true →
      (getByIDResult zeroR o3).1 = zeroR)
    ∧ ((getByIDResult zeroR o3).2 = none →
      ∃ b, o3 = HttpOutcome.response 200 (Except.ok b)
        ∧ (getByIDResult zeroR o3).1 = b)
    ∧ ((updateResult zeroR o4).2.isSome = true →
      (updateResult zeroR o4).1 = zeroR)
    ∧ ((updateResult zeroR o4).2 = none →
      ∃ b, o4 = HttpOutcome.response 200 (Except.ok b)
        ∧ (updateResult zeroR o4).1 = b)
    ∧ ((setResult zeroR o5).2.isSome = true →
      (setResult zeroR o5).1 = zeroR)
    ∧ ((setResult zeroR o5).2 = none →
      ∃ b, o5 = HttpOutcome.response 200 (Except.ok b)
        ∧ (setResult zeroR o5).1 = b)
    ∧ ((itemsResult o6).2.isSome = true → (itemsResult o6).1 = [])
    ∧ ((itemsResult o6).2 = none →
      ∃ b, o6 = HttpOutcome.response 200 (Except.ok b)
        ∧ (itemsResult o6).1 = b) := by
  rw [insertResult_eq_gen, createResult_eq_gen, getByIDResult_eq_gen,
    updateResult_eq_gen, setResult_eq_gen, itemsResult_eq_gen]
  exact ⟨(genResult_spec _ zeroR o1).1, (genResult_spec _ zeroR o1).2,
    (genResult_spec _ zeroR o2).1, (genResult_spec _ zeroR o2).2,
    (genResult_spec _ zeroR o3).1, (genResult_spec _ zeroR o3).2,
    (genResult_spec _ zeroR o4).1, (genResult_spec _ zeroR o4).2,
    (genResult_spec _ zeroR o5).1, (genResult_spec _ zeroR o5).2,
    (genResult_spec _ [] o6).1, (genResult_spec _ [] o6).2⟩

/-- Witness for claim C9: a transport failure makes Insert return the zero
value of the read type. -/
theorem error_results_zero_witness :
    (insertResult (0 : Nat) (HttpOutcome.transportFailure "no route")).1
      = 0 :=
  (error_results_zero 0 (HttpOutcome.transportFailure "no route")
    (HttpOutcome.transportFailure "no route")
    (HttpOutcome.transportFailure "no route")
    (HttpOutcome.transportFailure "no route")
    (HttpOutcome.transportFailure "no route")
    (HttpOutcome.transportFailure "no route")).1 rfl

/-- Claim C10: the parameter map Items sends is the translated query map
with the fields key overwritten by the comma-joined derived path list:
fields maps to that join, and every other key is exactly what the
version-specific translation produced. -/
theorem items_fields_override (d : APIClient)
    (translated : String → Option String) (fs : List String)
    (d' : APIClient) (h : jsonFieldsR d = Except.ok (fs, d')) :
    ∃ p, itemsParams d translated = Except.ok p
      ∧ p "fields" = some (String.intercalate "," fs)
      ∧ ∀ k, k ≠ "fields" → p k = translated k := by
  have hp : itemsParams d translated
      = Except.ok (fun k =>
          if k = "fields" then some (String.intercalate "," fs)
          else translated k) := by
    simp only [itemsParams, h]
  refine ⟨_, hp, by simp, ?_⟩
  intro k hk
  simp [hk]

/-- Witness for claim C10: on the sample client with a translation that
produced limit and fields entries, the final map joins the derived paths
under fields and keeps limit untouched. -/
theorem items_fields_override_witness :
    ∃ p, itemsParams sampleClient
        (fun k => if k = "limit" then some "10"
                  else if k = "fields" then some "stale" else none)
      = Except.ok p
      ∧ p "fields" = some "id,title"
      ∧ p "limit" = some "10" := by
  have h := items_fields_override sampleClient
    (fun k => if k = "limit" then some "10"
              else if k = "fields" then some "stale" else none)
    ["id", "title"]
    { sampleClient with queryFields := some ["id", "title"] } rfl
  rcases h with ⟨p, hp, hf, ho⟩
  exact ⟨p, hp, by simpa using hf, by simpa using ho "limit" (by decide)⟩

end DirectusApi
